import Mathlib

/-!
Shallow embedding of the `TreeOfWork::Work` class from `src/tree_of_work.h`
and of its two static wiring helpers.

Modelling conventions:
* A node's fields keep the source names (`m_state`, `m_children`,
  `m_parent_count`, `m_parent_done_count`, `m_trigger_condition`).
* `m_promise_done` / `m_is_done` (a `std::promise<bool>` / `std::future<bool>`
  pair) are modelled by two booleans: `promiseSet` (the promise has had
  `set_value` called in the current generation) and `futureValid`
  (`m_is_done.valid()`; `get()` consumes the future and makes it invalid).
* The user-supplied worker function is arbitrary external code whose body is
  out of scope; a node only stores an opaque identifier `m_workerId` for it.
  Launching the worker thread is modelled by the `Bool` component returned by
  `trigger` (`true` iff a `std::thread` was spawned for the worker).
* Nodes live in a `Store` (a map from node ids to node states) because
  `done` mutates the triggered children through shared pointers.
-/

namespace TreeOfWorkModel

/-- Work::State — the per-node lifecycle state. -/
inductive WState where
  | Created
  | Running
  | Completed
  | Failed
deriving DecidableEq

/-- Work::Conditional — the trigger condition (`OR` = any parent, `AND` = all parents). -/
inductive Conditional where
  | OR
  | AND
deriving DecidableEq

/-- Identifier of a node in the store (stands for a `std::shared_ptr<Work>`). -/
abbrev NodeId := Nat

/-- The data members of one `Work` object (tree_of_work.h, member section at the
bottom of the class).  `promiseSet`/`futureValid` model the
`m_promise_done`/`m_is_done` pair as described in the file header. -/
structure NodeState where
  m_state : WState
  m_children : List NodeId
  m_workerId : Nat
  promiseSet : Bool
  futureValid : Bool
  m_parent_count : Nat
  m_parent_done_count : Nat
  m_trigger_condition : Conditional
deriving DecidableEq

/-- The `Work::Work(const WorkerFunc& f)` constructor: state `Created`,
no children, fresh promise/future pair, both counters zero, condition `OR`. -/
def newWork (f : Nat) : NodeState :=
  { m_state := WState.Created
    m_children := []
    m_workerId := f
    promiseSet := false
    futureValid := true
    m_parent_count := 0
    m_parent_done_count := 0
    m_trigger_condition := Conditional.OR }

/-- `Work::trigger(parent_state)` (the C++ default argument is
`State::Completed`).  Returns the updated node together with `true` iff the
worker thread was launched (`std::thread t(m_worker, m_control); t.detach()`).
Mirrors the source: everything is guarded by `m_state == Created`; only a
`Completed` parent state is processed; the decrement of `m_parent_count`
(floored at zero) happens before the gate switch; `OR` runs immediately,
`AND` runs when the decremented count is zero. -/
def trigger (nd : NodeState) (parent_state : WState) : NodeState × Bool :=
  if nd.m_state = WState.Created then
    if parent_state = WState.Completed then
      let pc := if nd.m_parent_count > 0 then nd.m_parent_count - 1 else nd.m_parent_count
      let run_now : Bool :=
        match nd.m_trigger_condition with
        | Conditional.OR => true
        | Conditional.AND => pc == 0
      if run_now then
        ({ nd with m_parent_count := pc, m_state := WState.Running }, true)
      else
        ({ nd with m_parent_count := pc }, false)
    else (nd, false)
  else (nd, false)

/-- `Work::register_child(child)`: appends `child` to THIS node's
`m_children`, then increments THIS node's own `m_parent_count` and copies the
new value into `m_parent_done_count`.  (Note: the counters of the receiver —
the parent — are the ones mutated, not the child's.) -/
def register_child (nd : NodeState) (child : NodeId) : NodeState :=
  { nd with
    m_children := nd.m_children ++ [child]
    m_parent_count := nd.m_parent_count + 1
    m_parent_done_count := nd.m_parent_count + 1 }

/-- `Work::set_trigger_condition(c)`: plain assignment of the condition. -/
def set_trigger_condition (nd : NodeState) (c : Conditional) : NodeState :=
  { nd with m_trigger_condition := c }

/-- `Work::reset(deep)`, the per-node body after the wait-if-running guard
(the claim settled on it concerns a node that is not `Running`, for which the
guard is a no-op): state back to `Created`, a fresh
`std::promise`/`std::future` pair (`promiseSet := false`,
`futureValid := true`), and the assignment
`m_parent_done_count = m_parent_count` exactly as written in the source
(`m_parent_count` itself is left unchanged).  The `deep` flag only recurses
this same per-node body into the children. -/
def reset (nd : NodeState) : NodeState :=
  { nd with
    m_state := WState.Created
    promiseSet := false
    futureValid := true
    m_parent_done_count := nd.m_parent_count }

/-- Outcome of a call to `wait_for_done`: either it returned immediately, or
it entered `m_is_done.get()`, which blocks until the promise is fulfilled and
only then returns. -/
inductive WaitOutcome where
  | immediate
  | blockedUntilSignal
deriving DecidableEq

/-- `Work::wait_for_done()`: if the future is valid and
`wait_for(0) != ready` (the promise is not yet fulfilled) the call enters
`get()`, which blocks until the signal is published and consumes the future
(`futureValid := false`); otherwise it returns immediately without touching
the node. -/
def wait_for_done (nd : NodeState) : NodeState × WaitOutcome :=
  if nd.futureValid && !nd.promiseSet then
    ({ nd with futureValid := false }, WaitOutcome.blockedUntilSignal)
  else (nd, WaitOutcome.immediate)

/-- The effect of `Work::done(result)` on the node itself, ignoring the
fan-out to children: `m_state = result` is executed first; then
`m_promise_done.set_value(true)` fulfils the promise — unless it was already
fulfilled, in which case `set_value` throws `std::future_error`
(promise_already_satisfied), modelled by the `true` flag, and the fan-out
loop below it is never reached. -/
def doneLocal (nd : NodeState) (result : WState) : NodeState × Bool :=
  if nd.promiseSet then
    ({ nd with m_state := result }, true)
  else
    ({ nd with m_state := result, promiseSet := true }, false)

/-- The heap of nodes: node states indexed by id (shared pointers). -/
abbrev Store := NodeId → NodeState

/-- Point update of the store (mutation of one `Work` object). -/
def update (st : Store) (n : NodeId) (nd : NodeState) : Store :=
  fun m => if m = n then nd else st m

/-- All nodes freshly constructed (node `n` built from worker id `n`). -/
def initStore : Store := fun n => newWork n

/-- `Work::done(result)` on the store: first `m_state = result`, then
`m_promise_done.set_value(true)` — which throws (second component `true`)
when the promise is already satisfied, skipping the fan-out — and finally the
fan-out loop `for child in m_children: child->trigger(m_state.load())`.
The state passed to the children is `result`, the value just stored (a
re-trigger of the node itself through a self-edge is a no-op because its
state is no longer `Created`, so the load stays `result` across the loop). -/
def done (st : Store) (n : NodeId) (result : WState) : Store × Bool :=
  let st1 := update st n { st n with m_state := result }
  if (st n).promiseSet then
    (st1, true)
  else
    let st2 := update st1 n { st1 n with promiseSet := true }
    ((st n).m_children.foldl (fun s c => update s c (trigger (s c) result).1) st2, false)

/-- One atomic action performed by `Work::done`, in program order:
record the terminal state, publish the completion signal, trigger one child. -/
inductive Ev where
  | setState (n : NodeId) (s : WState)
  | publish (n : NodeId)
  | triggerChild (c : NodeId) (ps : WState)
deriving DecidableEq

/-- The sequence of atomic actions `Work::done(result)` performs, in source
order: the state write, then (first call only) the signal publication
followed by one trigger per registered child. -/
def doneTrace (nd : NodeState) (n : NodeId) (result : WState) : List Ev :=
  if nd.promiseSet then
    [Ev.setState n result]
  else
    Ev.setState n result :: Ev.publish n ::
      nd.m_children.map (fun c => Ev.triggerChild c result)

/-- Interpretation of one atomic `done` action on the store. -/
def applyEv (st : Store) : Ev → Store
  | Ev.setState n s => update st n { st n with m_state := s }
  | Ev.publish n => update st n { st n with promiseSet := true }
  | Ev.triggerChild c ps => update st c (trigger (st c) ps).1

/-- Body of the nested loops of the two wiring helpers, for one
(parent, child) pair: `child->set_trigger_condition(c0)` followed by
`parent->register_child(child)`. -/
def wirePair (c0 : Conditional) (st : Store) (p c : NodeId) : Store :=
  let st1 := update st c (set_trigger_condition (st c) c0)
  update st1 p (register_child (st1 p) c)

/-- `Work::execute_if_all_finished(parents, children)`: for every parent, for
every child, set the child's condition to `AND` and register the child under
the parent. -/
def execute_if_all_finished (st : Store) (parents children : List NodeId) : Store :=
  parents.foldl (fun s p => children.foldl (fun s2 c => wirePair Conditional.AND s2 p c) s) st

/-- `Work::execute_if_any_finished(parents, children)`: same nested loops
with condition `OR`. -/
def execute_if_any_finished (st : Store) (parents children : List NodeId) : Store :=
  parents.foldl (fun s p => children.foldl (fun s2 c => wirePair Conditional.OR s2 p c) s) st

/-- `k`-fold repetition of `register_child` with the same child (repeated or
overlapping wiring calls naming the same pair). -/
def regK (nd : NodeState) (c : NodeId) : Nat → NodeState
  | 0 => nd
  | Nat.succ k => register_child (regK nd c k) c

/-- One step of the per-node history: any of the node's public operations, as
another thread (a parent's fan-out, the worker's finalize callback, the
driver) may interleave them.  `fin` is the node-local part of `done`, whose
argument is one of the two terminal states bound in the `Control` handle;
`waitGetReturn` is the completion of a blocked `m_is_done.get()`, which can
only return once the promise has been fulfilled and consumes the future. -/
inductive Step : NodeState → NodeState → Prop where
  | trig (nd : NodeState) (ps : WState) : Step nd (trigger nd ps).1
  | reg (nd : NodeState) (c : NodeId) : Step nd (register_child nd c)
  | setCond (nd : NodeState) (c : Conditional) : Step nd (set_trigger_condition nd c)
  | fin (nd : NodeState) (r : WState) :
      r = WState.Completed ∨ r = WState.Failed → Step nd (doneLocal nd r).1
  | waitGetReturn (nd : NodeState) :
      nd.promiseSet = true → Step nd { nd with futureValid := false }
  | rst (nd : NodeState) : Step nd (reset nd)

/-!  Theorems.  -/

/-- The store effect of `done` is exactly the left fold of its atomic action
trace: state write, then publication, then one child trigger per registered
child, in source order. -/
theorem done_eq_trace (st : Store) (n : NodeId) (r : WState)
    (h : (st n).promiseSet = false) :
    done st n r = ((doneTrace (st n) n r).foldl applyEv st, false) := by
  have h' : ¬((st n).promiseSet = true) := by simp [h]
  unfold done doneTrace
  rw [if_neg h', if_neg h']
  simp only [List.foldl_cons, List.foldl_map]
  rfl

/-- C6: when a node finalizes (first `done` on this run), its store effect is
the fold of its action trace, and in that trace the state write is at
position 0, the signal publication at position 1, and every child trigger at
a position at least 2: no child is triggered before the state has been
recorded and the completion signal published. -/
theorem C6_fanout_after_record_and_publish (st : Store) (n : NodeId) (r : WState)
    (h : (st n).promiseSet = false) :
    done st n r = ((doneTrace (st n) n r).foldl applyEv st, false) ∧
    (doneTrace (st n) n r).get? 0 = some (Ev.setState n r) ∧
    (doneTrace (st n) n r).get? 1 = some (Ev.publish n) ∧
    ∀ k c ps, (doneTrace (st n) n r).get? k = some (Ev.triggerChild c ps) → 2 ≤ k := by
  refine ⟨done_eq_trace st n r h, ?_, ?_, ?_⟩
  · simp [doneTrace, h]
  · simp [doneTrace, h]
  · intro k c ps hk
    match k with
    | 0 => simp [doneTrace, h] at hk
    | 1 => simp [doneTrace, h] at hk
    | Nat.succ (Nat.succ m) => omega

/-- C6 witness: node 0 wired as parent of node 1, finalizing `Completed`. -/
theorem C6_fanout_after_record_and_publish_witness :
    ((execute_if_all_finished initStore [0] [1]) 0).promiseSet = false ∧
    (done (execute_if_all_finished initStore [0] [1]) 0 WState.Completed
        = ((doneTrace ((execute_if_all_finished initStore [0] [1]) 0) 0 WState.Completed).foldl
            applyEv (execute_if_all_finished initStore [0] [1]), false) ∧
      (doneTrace ((execute_if_all_finished initStore [0] [1]) 0) 0 WState.Completed).get? 0
        = some (Ev.setState 0 WState.Completed) ∧
      (doneTrace ((execute_if_all_finished initStore [0] [1]) 0) 0 WState.Completed).get? 1
        = some (Ev.publish 0) ∧
      ∀ k c ps,
        (doneTrace ((execute_if_all_finished initStore [0] [1]) 0) 0 WState.Completed).get? k
          = some (Ev.triggerChild c ps) → 2 ≤ k) :=
  ⟨by decide,
   C6_fanout_after_record_and_publish (execute_if_all_finished initStore [0] [1]) 0
     WState.Completed (by decide)⟩

/-- Repeated registration appends one entry per call at the end of
`m_children`. -/
theorem regK_children (nd : NodeState) (c : NodeId) (k : Nat) :
    (regK nd c k).m_children = nd.m_children ++ List.replicate k c := by
  induction k with
  | zero => simp [regK]
  | succ m ih =>
    simp [regK, register_child, ih, List.append_assoc]
    rw [← List.replicate_succ', List.replicate_succ]

/-- Repeated registration adds one to the receiver's own counter per call. -/
theorem regK_parent_count (nd : NodeState) (c : NodeId) (k : Nat) :
    (regK nd c k).m_parent_count = nd.m_parent_count + k := by
  induction k with
  | zero => simp [regK]
  | succ m ih => simp [regK, register_child, ih]; omega

/-- Registration does not touch the completion-signal state. -/
theorem regK_promiseSet (nd : NodeState) (c : NodeId) (k : Nat) :
    (regK nd c k).promiseSet = nd.promiseSet := by
  induction k with
  | zero => rfl
  | succ m ih => simp [regK, register_child, ih]

/-- Counting trigger events for a given child in the fan-out portion of the
trace counts the child's occurrences in `m_children`. -/
theorem count_triggerChild (r : WState) (c : NodeId) (l : List NodeId) :
    (l.map (fun ch => Ev.triggerChild ch r)).count (Ev.triggerChild c r) = l.count c := by
  induction l with
  | nil => rfl
  | cons a l ih =>
    by_cases hac : a = c
    · subst hac; simp [List.count_cons, ih]
    · simp [List.count_cons, ih, hac]

/-- C10: registering the same child `c` under a parent `k` times appends `k`
separate entries to the parent's `m_children`, increments the parent's own
counter `k` times, and one finalize of the parent delivers `k` additional
trigger signals to `c` (one per occurrence in the fan-out trace). -/
theorem C10_duplicate_registration (nd : NodeState) (c : NodeId) (n : NodeId)
    (k : Nat) (r : WState) (h : nd.promiseSet = false) :
    (regK nd c k).m_children = nd.m_children ++ List.replicate k c ∧
    (regK nd c k).m_parent_count = nd.m_parent_count + k ∧
    (doneTrace (regK nd c k) n r).count (Ev.triggerChild c r)
      = nd.m_children.count c + k := by
  refine ⟨regK_children nd c k, regK_parent_count nd c k, ?_⟩
  have hp : (regK nd c k).promiseSet = false := (regK_promiseSet nd c k).trans h
  simp [doneTrace, hp, List.count_cons, regK_children, count_triggerChild,
    List.count_append, List.count_replicate]

/-- C10 witness: two registrations of child 1 under a fresh node. -/
theorem C10_duplicate_registration_witness :
    (regK (newWork 0) 1 2).m_children = (newWork 0).m_children ++ List.replicate 2 1 ∧
    (regK (newWork 0) 1 2).m_parent_count = (newWork 0).m_parent_count + 2 ∧
    (doneTrace (regK (newWork 0) 1 2) 0 WState.Completed).count
        (Ev.triggerChild 1 WState.Completed) = (newWork 0).m_children.count 1 + 2 :=
  C10_duplicate_registration (newWork 0) 1 0 2 WState.Completed (by decide)

/-- Wiring one (parent, child) pair sets exactly the child's condition to the
helper's condition and leaves every other node's condition alone
(`register_child` never touches a condition). -/
theorem wirePair_cond (c0 : Conditional) (st : Store) (p c x : NodeId) :
    ((wirePair c0 st p c) x).m_trigger_condition
      = if x = c then c0 else (st x).m_trigger_condition := by
  unfold wirePair update set_trigger_condition register_child
  by_cases h1 : x = p
  · subst h1
    by_cases h2 : x = c
    · subst h2; simp
    · simp [h2]
  · by_cases h2 : x = c
    · subst h2; simp [h1]
    · simp [h1, h2]

/-- After the inner loop of a wiring helper (one parent, all children), every
node in the children list has the helper's condition; all other nodes keep
theirs. -/
theorem cond_after_childLoop (c0 : Conditional) (p : NodeId) (cs : List NodeId) :
    ∀ (st : Store) (x : NodeId),
    ((cs.foldl (fun s2 c => wirePair c0 s2 p c) st) x).m_trigger_condition
      = if x ∈ cs then c0 else (st x).m_trigger_condition := by
  induction cs with
  | nil => intro st x; simp
  | cons c cs ih =>
    intro st x
    simp only [List.foldl_cons]
    rw [ih]
    by_cases hx : x ∈ cs
    · simp [hx]
    · by_cases hxc : x = c
      · simp [hx, hxc, wirePair_cond]
      · simp [hx, hxc, wirePair_cond]

/-- After a whole wiring-helper call with a nonempty parent list, every node
in the children list carries the helper's condition. -/
theorem cond_after_parentLoop (c0 : Conditional) (cs : List NodeId) :
    ∀ (ps : List NodeId) (st : Store) (x : NodeId), x ∈ cs → ps ≠ [] →
    ((ps.foldl (fun s p => cs.foldl (fun s2 c => wirePair c0 s2 p c) s) st) x).m_trigger_condition
      = c0 := by
  intro ps
  induction ps with
  | nil => intro st x _ hne; exact absurd rfl hne
  | cons p ps ih =>
    intro st x hx _
    cases ps with
    | nil =>
      simp only [List.foldl_cons, List.foldl_nil]
      rw [cond_after_childLoop]
      simp [hx]
    | cons q qs =>
      simp only [List.foldl_cons]
      exact ih _ x hx (by simp)

/-- C8: the gate is a property of the receiving node and each wiring-helper
call overwrites it, so after any earlier wiring history (arbitrary prior
store), a node in the child set of the most recent helper call (with at least
one parent, so the nested loops run) has exactly that call's gate:
`execute_if_all_finished` last yields `AND`, `execute_if_any_finished` last
yields `OR`. -/
theorem C8_latest_wiring_wins (st : Store) (parents children : List NodeId) (c : NodeId)
    (hc : c ∈ children) (hp : parents ≠ []) :
    ((execute_if_all_finished st parents children) c).m_trigger_condition = Conditional.AND ∧
    ((execute_if_any_finished st parents children) c).m_trigger_condition = Conditional.OR :=
  ⟨cond_after_parentLoop Conditional.AND children parents st c hc hp,
   cond_after_parentLoop Conditional.OR children parents st c hc hp⟩

/-- C8 witness: node 1 wired as `ANY` child of node 0 after having been an
`ALL` child, and vice versa. -/
theorem C8_latest_wiring_wins_witness :
    (1 : NodeId) ∈ [(1 : NodeId)] ∧ ([(0 : NodeId)] ≠ []) ∧
    ((execute_if_all_finished (execute_if_any_finished initStore [0] [1]) [0] [1]) 1).m_trigger_condition
      = Conditional.AND ∧
    ((execute_if_any_finished (execute_if_any_finished initStore [0] [1]) [0] [1]) 1).m_trigger_condition
      = Conditional.OR :=
  ⟨by decide, by decide,
   (C8_latest_wiring_wins (execute_if_any_finished initStore [0] [1]) [0] [1] 1
     (by decide) (by decide)).1,
   (C8_latest_wiring_wins (execute_if_any_finished initStore [0] [1]) [0] [1] 1
     (by decide) (by decide)).2⟩

/-- A `trigger` call never touches the promise/future pair. -/
theorem trigger_preserves_signal (nd : NodeState) (ps : WState) :
    (trigger nd ps).1.promiseSet = nd.promiseSet ∧
    (trigger nd ps).1.futureValid = nd.futureValid := by
  unfold trigger
  repeat (first | exact ⟨rfl, rfl⟩ | split)
  all_goals refine ⟨?_, ?_⟩ <;> simp [apply_ite]

/-- After the node-local part of `done`, the promise is satisfied (it either
already was — the throwing branch — or `set_value` just ran); the future is
untouched. -/
theorem doneLocal_signal (nd : NodeState) (r : WState) :
    (doneLocal nd r).1.promiseSet = true ∧
    (doneLocal nd r).1.futureValid = nd.futureValid := by
  unfold doneLocal
  split
  next h => exact ⟨h, rfl⟩
  next => exact ⟨rfl, rfl⟩

/-- Per-node history invariant: in every state reachable from construction by
the node's own operations, an invalid future (a consumed `m_is_done`) implies
the promise has been fulfilled — `get()` can only have returned after
`set_value`, and `reset` renews both together. -/
theorem reach_inv (f : Nat) (nd : NodeState)
    (h : Relation.ReflTransGen Step (newWork f) nd) :
    nd.futureValid = false → nd.promiseSet = true := by
  induction h with
  | refl => intro h0; simp [newWork] at h0
  | @tail b c hab hbc ih =>
    cases hbc with
    | trig ps =>
      intro h0
      rw [(trigger_preserves_signal b ps).2] at h0
      rw [(trigger_preserves_signal b ps).1]
      exact ih h0
    | reg ch => intro h0; exact ih h0
    | setCond cd => intro h0; exact ih h0
    | fin r hr => intro _; exact (doneLocal_signal b r).1
    | waitGetReturn hm => intro _; exact hm
    | rst => intro h0; simp [reset] at h0

/-- C7: in every reachable state of a node, `wait_for_done` (a) returns
immediately and changes nothing when the completion signal has already been
published; (b) never returns immediately while the signal is unpublished, and
(c) only enters the blocking `get()` — which returns exactly when the signal
is published — while the signal is unpublished and the future still valid;
and (d) a repeated call after the signal is published also returns
immediately, so all calls are safe and all return once the signal is set. -/
theorem C7_wait_for_done_correct (f : Nat) (nd : NodeState)
    (h : Relation.ReflTransGen Step (newWork f) nd) :
    (nd.promiseSet = true → wait_for_done nd = (nd, WaitOutcome.immediate)) ∧
    ((wait_for_done nd).2 = WaitOutcome.immediate → nd.promiseSet = true) ∧
    ((wait_for_done nd).2 = WaitOutcome.blockedUntilSignal →
        nd.promiseSet = false ∧ nd.futureValid = true) ∧
    (nd.promiseSet = true →
        wait_for_done ((wait_for_done nd).1) = ((wait_for_done nd).1, WaitOutcome.immediate)) := by
  have inv := reach_inv f nd h
  refine ⟨?_, ?_, ?_, ?_⟩
  · intro hp; unfold wait_for_done; simp [hp]
  · intro him
    rcases Bool.eq_false_or_eq_true nd.promiseSet with hp | hp
    · exact hp
    · rcases Bool.eq_false_or_eq_true nd.futureValid with hv | hv
      · exfalso
        unfold wait_for_done at him
        rw [if_pos (by simp [hv, hp])] at him
        exact WaitOutcome.noConfusion him
      · exact inv hv
  · intro hb
    rcases Bool.eq_false_or_eq_true (nd.futureValid && !nd.promiseSet) with hc | hc
    · have hc2 : nd.futureValid = true ∧ nd.promiseSet = false := by
        simpa [Bool.and_eq_true] using hc
      exact ⟨hc2.2, hc2.1⟩
    · exfalso
      unfold wait_for_done at hb
      rw [if_neg (by simp [hc])] at hb
      exact WaitOutcome.noConfusion hb
  · intro hp
    have h1 : wait_for_done nd = (nd, WaitOutcome.immediate) := by
      unfold wait_for_done; simp [hp]
    rw [h1]
    unfold wait_for_done
    simp [hp]

/-- C7 witness: the state of a fresh node just after its worker finalized
`Completed` is reachable, and the wait properties hold there. -/
theorem C7_wait_for_done_correct_witness :
    Relation.ReflTransGen Step (newWork 0) (doneLocal (newWork 0) WState.Completed).1 ∧
    (((doneLocal (newWork 0) WState.Completed).1.promiseSet = true →
        wait_for_done (doneLocal (newWork 0) WState.Completed).1
          = ((doneLocal (newWork 0) WState.Completed).1, WaitOutcome.immediate)) ∧
     ((wait_for_done (doneLocal (newWork 0) WState.Completed).1).2 = WaitOutcome.immediate →
        (doneLocal (newWork 0) WState.Completed).1.promiseSet = true) ∧
     ((wait_for_done (doneLocal (newWork 0) WState.Completed).1).2
          = WaitOutcome.blockedUntilSignal →
        (doneLocal (newWork 0) WState.Completed).1.promiseSet = false ∧
        (doneLocal (newWork 0) WState.Completed).1.futureValid = true) ∧
     ((doneLocal (newWork 0) WState.Completed).1.promiseSet = true →
        wait_for_done ((wait_for_done (doneLocal (newWork 0) WState.Completed).1).1)
          = ((wait_for_done (doneLocal (newWork 0) WState.Completed).1).1,
             WaitOutcome.immediate))) :=
  ⟨Relation.ReflTransGen.single (Step.fin (newWork 0) WState.Completed (Or.inl rfl)),
   C7_wait_for_done_correct 0 (doneLocal (newWork 0) WState.Completed).1
     (Relation.ReflTransGen.single (Step.fin (newWork 0) WState.Completed (Or.inl rfl)))⟩

/-- C9: a node constructed by the `Work` constructor (`NewTaskNode(f)`), for
any worker function `f`, starts in state `Created` with the `OR` (`ANY`)
gate, a zero pending parent count, and an empty children list. -/
theorem C9_construction (f : Nat) :
    (newWork f).m_state = WState.Created ∧
    (newWork f).m_trigger_condition = Conditional.OR ∧
    (newWork f).m_parent_count = 0 ∧
    (newWork f).m_children = [] :=
  ⟨rfl, rfl, rfl, rfl⟩

/-- C5: for a node whose state is not `Created` (i.e. `Running`, `Completed`
or `Failed`), `trigger` with any parent state is a complete no-op — the node
(state, pending count, gate, children) is returned unchanged and no worker is
launched — while `reset` does return the node to `Created`. -/
theorem C5_trigger_noop_nonCreated (nd : NodeState) (ps : WState)
    (h : nd.m_state ≠ WState.Created) :
    trigger nd ps = (nd, false) ∧ (reset nd).m_state = WState.Created := by
  refine ⟨?_, rfl⟩
  unfold trigger
  simp [h]

/-- C5 witness: a concrete `Running` node is untouched by `trigger`. -/
theorem C5_trigger_noop_nonCreated_witness :
    trigger { newWork 0 with m_state := WState.Running } WState.Completed
        = ({ newWork 0 with m_state := WState.Running }, false) ∧
    (reset { newWork 0 with m_state := WState.Running }).m_state = WState.Created :=
  C5_trigger_noop_nonCreated { newWork 0 with m_state := WState.Running }
    WState.Completed (by decide)

/-- C2 counterexample: wire node 1 as an `ALL`-gated child of node 0 and as a
parent of node 2, so node 1 is in `Created` with condition `AND` and a live
count of 1.  A `trigger` with `Failed` leaves the count at 1 — the failed
parent is NOT consumed for counting purposes (the claim would require the
count to drop to 0), and the whole node is unchanged. -/
theorem C2_failed_not_counted_cex :
    ((execute_if_all_finished (execute_if_all_finished initStore [0] [1]) [1] [2]) 1).m_state
        = WState.Created ∧
    ((execute_if_all_finished (execute_if_all_finished initStore [0] [1]) [1] [2]) 1).m_trigger_condition
        = Conditional.AND ∧
    ((execute_if_all_finished (execute_if_all_finished initStore [0] [1]) [1] [2]) 1).m_parent_count
        = 1 ∧
    (trigger ((execute_if_all_finished (execute_if_all_finished initStore [0] [1]) [1] [2]) 1)
        WState.Failed).1.m_parent_count = 1 := by
  decide

/-- C2 (amended): for a node in state `Created`, a `trigger` whose parent
state is not `Completed` (in particular `Failed`) is silently dropped: the
node is returned unchanged — no counter update, no state change — and no
worker is launched. -/
theorem C2_failed_trigger_dropped (nd : NodeState) (ps : WState)
    (h1 : nd.m_state = WState.Created) (h2 : ps ≠ WState.Completed) :
    trigger nd ps = (nd, false) := by
  unfold trigger
  simp [h1, h2]

/-- C2 witness: a fresh node receiving a `Failed` trigger is unchanged. -/
theorem C2_failed_trigger_dropped_witness :
    trigger (newWork 0) WState.Failed = (newWork 0, false) :=
  C2_failed_trigger_dropped (newWork 0) WState.Failed (by decide) (by decide)

/-- C4 counterexample: finalize node 0 once with `Completed`
(`set_completed`), then call `set_failed` on the same run.  The second call
is not a no-op: it overwrites the recorded terminal state with `Failed`
(so the state is no longer `Completed`) and `set_value` on the already
satisfied promise throws `std::future_error` (second component `true`). -/
theorem C4_second_finalize_cex :
    (((done (done initStore 0 WState.Completed).1 0 WState.Failed).1) 0).m_state
        = WState.Failed ∧
    ((done initStore 0 WState.Completed).1 0).m_state = WState.Completed ∧
    (done (done initStore 0 WState.Completed).1 0 WState.Failed).2 = true := by
  decide

/-- C4 (amended): across the `set_completed`/`set_failed` pair, only the
first call publishes the completion signal and fans out to the children; a
second call to either does not re-publish and does not re-notify any child,
but it is not a harmless no-op: it overwrites the node's recorded state with
its own argument and raises a promise-already-satisfied error. -/
theorem C4_second_finalize_overwrites (st : Store) (n : NodeId) (r : WState)
    (h : (st n).promiseSet = true) :
    done st n r = (update st n { st n with m_state := r }, true) := by
  unfold done
  simp [h]

/-- C4 witness: applying the amended statement after a first `Completed`
finalize of node 0. -/
theorem C4_second_finalize_overwrites_witness :
    (((done initStore 0 WState.Completed).1) 0).promiseSet = true ∧
    done (done initStore 0 WState.Completed).1 0 WState.Failed
      = (update (done initStore 0 WState.Completed).1 0
          { (done initStore 0 WState.Completed).1 0 with m_state := WState.Failed }, true) :=
  ⟨by decide,
   C4_second_finalize_overwrites (done initStore 0 WState.Completed).1 0 WState.Failed
     (by decide)⟩

/-- C1 (failing input): nodes 0 and 1 wired as `ALL` parents of node 2 via
`execute_if_all_finished`.  `register_child` increments the counter of the
PARENT it is called on, so node 2's `m_parent_count` stays 0 (and node 0's
becomes 1); when node 0 alone finalizes `Completed`, its fan-out triggers
node 2, whose `AND` gate sees a zero count and launches immediately — node 2
is `Running` after only one of its two parents completed, contradicting the
claim that it stays `Created` until both have. -/
theorem C1_all_gate_counter_bug :
    ((execute_if_all_finished initStore [0, 1] [2]) 2).m_parent_count = 0 ∧
    ((execute_if_all_finished initStore [0, 1] [2]) 0).m_parent_count = 1 ∧
    ((execute_if_all_finished initStore [0, 1] [2]) 2).m_trigger_condition = Conditional.AND ∧
    ((done (execute_if_all_finished initStore [0, 1] [2]) 0 WState.Completed).1 2).m_state
        = WState.Running := by
  decide

/-- C3 (failing input): node 1 is wired as an `ALL` child of node 0 and as
parent of nodes 2 and 3, so its live count (which, due to the counter-target
placement, sits on it as a parent) is 2.  Two `Completed` triggers run it
(first leaves it `Created`, second launches), the worker finalizes, and
`reset` is called while not `Running`.  After reset the state is `Created`
and the signal is fresh, but the count read by `trigger` is 0, not the wired
value 2 — the source assigns `m_parent_done_count = m_parent_count` (the
reverse of a restore; `m_parent_done_count` is never read anywhere), so a
single post-reset trigger relaunches the two-parent `AND` node. -/
theorem C3_reset_count_not_restored :
    ((execute_if_all_finished (execute_if_all_finished (execute_if_all_finished
        initStore [0] [1]) [1] [2]) [1] [3]) 1).m_parent_count = 2 ∧
    (reset (doneLocal (trigger (trigger ((execute_if_all_finished (execute_if_all_finished
        (execute_if_all_finished initStore [0] [1]) [1] [2]) [1] [3]) 1)
        WState.Completed).1 WState.Completed).1 WState.Completed).1).m_state
        = WState.Created ∧
    (reset (doneLocal (trigger (trigger ((execute_if_all_finished (execute_if_all_finished
        (execute_if_all_finished initStore [0] [1]) [1] [2]) [1] [3]) 1)
        WState.Completed).1 WState.Completed).1 WState.Completed).1).promiseSet = false ∧
    (reset (doneLocal (trigger (trigger ((execute_if_all_finished (execute_if_all_finished
        (execute_if_all_finished initStore [0] [1]) [1] [2]) [1] [3]) 1)
        WState.Completed).1 WState.Completed).1 WState.Completed).1).futureValid = true ∧
    (reset (doneLocal (trigger (trigger ((execute_if_all_finished (execute_if_all_finished
        (execute_if_all_finished initStore [0] [1]) [1] [2]) [1] [3]) 1)
        WState.Completed).1 WState.Completed).1 WState.Completed).1).m_parent_count = 0 ∧
    (trigger (reset (doneLocal (trigger (trigger ((execute_if_all_finished
        (execute_if_all_finished (execute_if_all_finished initStore [0] [1]) [1] [2]) [1] [3]) 1)
        WState.Completed).1 WState.Completed).1 WState.Completed).1) WState.Completed).2
        = true := by
  decide

end TreeOfWorkModel
